import Mathlib

/-!
Verification of the capture / dedup / message-delivery pipeline of a
browser-extension repository.  The definitions below are a shallow embedding
of the TypeScript sources:

* `src/lib/capture.ts` — classifier (`shouldUseHTMLCapture`,
  `detectCaptureType`), converters (`htmlToMarkdown`), extraction
  (`captureTextSelection`, `captureHtmlSelection`, `captureMarkdownSelection`,
  `captureFullPage`, `captureContent`), page-side dedup (`captureTracker`),
  outbound retry (`sendCapturedContent`).
* the background entrypoint — message router (`onMessage` listener,
  `generateMessageId`, `isMessageProcessed`, `messageDeduplication`),
  capture store (`storeCapture`), panel replay (`sendAllCapturesToSidePanel`).
* the content-script entrypoint — screenshot single-flight / cooldown
  (`handleScreenshotCapture`).

Strings are modelled by Lean `String`; JavaScript character indices by `Char`
positions; `Date.now()` timestamps by `Nat` milliseconds.  Element `tagName`s
are represented uppercase, as the DOM reports them for HTML documents.
-/

/-! ### JavaScript string helpers -/

/-- Whitespace recognised by the embedding for JS `trim` and the regex
class `\s` (the ASCII cases, which are the ones the sources can meet). -/
def isJsWhitespace (c : Char) : Bool :=
  c = ' ' || c = '\t' || c = '\n' || c = '\r' || c = '\x0b' || c = '\x0c'

/-- Drop leading JS whitespace from a character list. -/
def trimLeftChars : List Char → List Char
  | [] => []
  | c :: r => if isJsWhitespace c then trimLeftChars r else c :: r

/-- JS `String.prototype.trim`: drop whitespace from both ends. -/
def jsTrim (s : String) : String :=
  String.mk (trimLeftChars ((trimLeftChars s.data.reverse).reverse))

/-- JS `s.substring(0, n)`. -/
def jsTake (n : Nat) (s : String) : String :=
  String.mk (s.data.take n)

/-- JS `s.replace(/\s+/g, '')`: remove every whitespace character. -/
def stripWs (s : String) : String :=
  String.mk (s.data.filter (fun c => !isJsWhitespace c))

/-! ### Dedup filter (capture.ts `captureTracker`, background
`messageDeduplication`)

Each tracker keeps a JS `Map` from hash to last-seen timestamp.  A JS `Map`
is an insertion-ordered association list whose `set` replaces in place. -/

/-- The hash → last-seen-timestamp map of a dedup tracker. -/
abbrev DedupMap := List (String × Nat)

/-- The `cleanup(now)` method shared by the trackers: delete every entry
whose timestamp is more than the window ago. -/
def cleanupEntries (window now : Nat) : DedupMap → DedupMap
  | [] => []
  | e :: rest =>
    if now - e.2 > window then cleanupEntries window now rest
    else e :: cleanupEntries window now rest

/-- JS `Map.prototype.get` (with `has` = `isSome`). -/
def lookupEntry : DedupMap → String → Option Nat
  | [], _ => none
  | e :: rest, h => if e.1 = h then some e.2 else lookupEntry rest h

/-- JS `Map.prototype.set`: replace in place if the key exists, else append. -/
def setEntry : DedupMap → String → Nat → DedupMap
  | [], h, t => [(h, t)]
  | e :: rest, h, t => if e.1 = h then (h, t) :: rest else e :: setEntry rest h t

/-- The `isDuplicate` check-and-set shared by `captureTracker` and
`messageDeduplication`: clean up expired entries, then report a duplicate
iff the hash is present and seen less than the window ago; a fresh hash is
recorded with the current time.  Returns the verdict and the updated map. -/
def dedupIsDuplicate (window : Nat) (m : DedupMap) (h : String) (now : Nat) :
    Bool × DedupMap :=
  let m1 := cleanupEntries window now m
  match lookupEntry m1 h with
  | some ts => (decide (now - ts < window), m1)
  | none => (false, setEntry m1 h now)

/-! ### Capture data model (capture.ts) -/

/-- The `CaptureType` enum of capture.ts. -/
inductive CaptureType where
  | text
  | html
  | markdown
  | screenshot
  | fullpage
deriving DecidableEq, Repr

/-- The string value of each `CaptureType` member. -/
def CaptureType.toStr : CaptureType → String
  | .text => "text"
  | .html => "html"
  | .markdown => "markdown"
  | .screenshot => "screenshot"
  | .fullpage => "fullpage"

/-- The `CapturedContent` record of capture.ts.  `metadata` is the open
string map gathered by `extractPageMetadata` (plus styling), kept abstract
as an association list since no claim inspects individual meta keys. -/
structure CapturedContent where
  type : CaptureType
  content : String
  title : String
  url : String
  timestamp : Nat
  metadata : List (String × String)
deriving DecidableEq, Repr

namespace captureTracker

/-- capture.ts `captureTracker.deduplicationWindow` (10 seconds). -/
def deduplicationWindow : Nat := 10000

/-- capture.ts `captureTracker.getContentHash`: type, url and a
whitespace-stripped 100-character sample of the content. -/
def getContentHash (content : CapturedContent) : String :=
  content.type.toStr ++ "-" ++ content.url ++ "-" ++ stripWs (jsTake 100 content.content)

/-- capture.ts `captureTracker.isDuplicate` over an explicit map state. -/
def isDuplicate (m : DedupMap) (content : CapturedContent) (now : Nat) :
    Bool × DedupMap :=
  dedupIsDuplicate deduplicationWindow m (getContentHash content) now

end captureTracker

/-! ### Background message model -/

/-- The `ExtMessage` shape of entrypoints/types.ts, with the metadata
fields the router and store consult (`metadata.type`,
`metadata.timestamp`) made explicit. -/
structure ExtMessage where
  messageType : String
  msgFrom : String
  content : Option String
  mtype : Option String
  mtimestamp : Nat
deriving DecidableEq, Repr

namespace messageDeduplication

/-- background `messageDeduplication.deduplicationWindow` (5 seconds). -/
def deduplicationWindow : Nat := 5000

/-- background `messageDeduplication.getMessageHash`: `metadata.type` and a
whitespace-stripped 100-character sample of the content. -/
def getMessageHash (message : ExtMessage) : String :=
  (message.mtype.getD "") ++ "-" ++ stripWs (jsTake 100 (message.content.getD ""))

/-- background `messageDeduplication.isDuplicate` over an explicit map state. -/
def isDuplicate (m : DedupMap) (message : ExtMessage) (now : Nat) :
    Bool × DedupMap :=
  dedupIsDuplicate deduplicationWindow m (getMessageHash message) now

end messageDeduplication

/-! ### Dedup filter lemmas -/

theorem cleanupEntries_mem {window now : Nat} {m : DedupMap} {e : String × Nat} :
    e ∈ cleanupEntries window now m ↔ e ∈ m ∧ ¬ now - e.2 > window := by
  induction m with
  | nil => simp [cleanupEntries]
  | cons a rest ih =>
    by_cases h : now - a.2 > window
    · rw [cleanupEntries, if_pos h, ih, List.mem_cons]
      constructor
      · rintro ⟨he, hw⟩; exact ⟨Or.inr he, hw⟩
      · rintro ⟨he | he, hw⟩
        · subst he; exact absurd h hw
        · exact ⟨he, hw⟩
    · rw [cleanupEntries, if_neg h, List.mem_cons, List.mem_cons]
      constructor
      · rintro (he | he)
        · exact ⟨Or.inl he, by rw [he]; exact h⟩
        · exact ⟨Or.inr (ih.mp he).1, (ih.mp he).2⟩
      · rintro ⟨he | he, hw⟩
        · exact Or.inl he
        · exact Or.inr (ih.mpr ⟨he, hw⟩)

theorem cleanupEntries_pairwise {window now : Nat} {m : DedupMap}
    (h : m.Pairwise (fun a b => a.1 ≠ b.1)) :
    (cleanupEntries window now m).Pairwise (fun a b => a.1 ≠ b.1) := by
  induction m with
  | nil => exact List.Pairwise.nil
  | cons a rest ih =>
    rcases h with _ | ⟨ha, hrest⟩
    by_cases hc : now - a.2 > window
    · rw [cleanupEntries, if_pos hc]; exact ih hrest
    · rw [cleanupEntries, if_neg hc]
      exact List.Pairwise.cons
        (fun b hb => ha b (cleanupEntries_mem.mp hb).1) (ih hrest)

theorem lookupEntry_some_of_mem {m : DedupMap} {h : String} {ts : Nat}
    (hu : m.Pairwise (fun a b => a.1 ≠ b.1)) (hmem : (h, ts) ∈ m) :
    lookupEntry m h = some ts := by
  induction m with
  | nil => cases hmem
  | cons a rest ih =>
    rcases hu with _ | ⟨ha, hrest⟩
    rcases List.mem_cons.mp hmem with he | he
    · rw [lookupEntry, if_pos (by rw [← he]), ← he]
    · have hne : a.1 ≠ h := ha (h, ts) he
      rw [lookupEntry, if_neg hne]
      exact ih hrest he

theorem lookupEntry_mem {m : DedupMap} {h : String} {ts : Nat}
    (hl : lookupEntry m h = some ts) : (h, ts) ∈ m := by
  induction m with
  | nil => simp [lookupEntry] at hl
  | cons a rest ih =>
    by_cases he : a.1 = h
    · rw [lookupEntry, if_pos he] at hl
      obtain rfl := Option.some.inj hl
      subst he
      exact List.mem_cons.mpr (Or.inl rfl)
    · rw [lookupEntry, if_neg he] at hl
      exact List.mem_cons.mpr (Or.inr (ih hl))

theorem setEntry_mem {m : DedupMap} {h : String} {t : Nat} {e : String × Nat}
    (hmem : e ∈ setEntry m h t) : e ∈ m ∨ e = (h, t) := by
  induction m with
  | nil => simpa [setEntry] using hmem
  | cons a rest ih =>
    by_cases he : a.1 = h
    · rw [setEntry, if_pos he, List.mem_cons] at hmem
      rcases hmem with hm | hm
      · exact Or.inr hm
      · exact Or.inl (List.mem_cons.mpr (Or.inr hm))
    · rw [setEntry, if_neg he, List.mem_cons] at hmem
      rcases hmem with hm | hm
      · exact Or.inl (List.mem_cons.mpr (Or.inl hm))
      · rcases ih hm with hm2 | hm2
        · exact Or.inl (List.mem_cons.mpr (Or.inr hm2))
        · exact Or.inr hm2

/-- First call on a fresh map: not a duplicate, and the hash is recorded. -/
theorem dedupIsDuplicate_fresh (window : Nat) (h : String) (t : Nat) :
    dedupIsDuplicate window [] h t = (false, [(h, t)]) := by
  simp [dedupIsDuplicate, cleanupEntries, lookupEntry, setEntry]

/-- C1 (core): the check-and-set behaviour of the shared dedup filter.
`isDuplicate(h)` on a fresh filter returns `false` and records `h`;
a second call within the window returns `true`; a third call after the
window has elapsed returns `false` (the entry having been lazily evicted);
in general the verdict is `true` iff the same hash was recorded within the
window, and the updated map never retains an entry older than the window. -/
theorem dedup_window_behaviour (window : Nat) (h : String) (t0 t1 t2 : Nat)
    (hwin : window = captureTracker.deduplicationWindow ∨
            window = messageDeduplication.deduplicationWindow)
    (h01 : t0 ≤ t1) (h12 : t1 ≤ t2)
    (hin : t1 - t0 < window) (hout : t2 - t0 > window) :
    (dedupIsDuplicate window [] h t0).1 = false ∧
    (dedupIsDuplicate window (dedupIsDuplicate window [] h t0).2 h t1).1 = true ∧
    (dedupIsDuplicate window
      (dedupIsDuplicate window (dedupIsDuplicate window [] h t0).2 h t1).2 h t2).1
      = false ∧
    (∀ m : DedupMap, m.Pairwise (fun a b => a.1 ≠ b.1) →
      ((dedupIsDuplicate window m h t0).1 = true ↔
        ∃ ts, (h, ts) ∈ m ∧ t0 - ts < window)) ∧
    (∀ m : DedupMap, ∀ e ∈ (dedupIsDuplicate window m h t0).2,
      t0 - e.2 ≤ window) := by
  have hnotin : ¬ t1 - t0 > window := by omega
  refine ⟨?_, ?_, ?_, ?_, ?_⟩
  · simp [dedupIsDuplicate_fresh]
  · simp [dedupIsDuplicate_fresh, dedupIsDuplicate, cleanupEntries, hnotin,
      lookupEntry, hin]
  · simp [dedupIsDuplicate_fresh, dedupIsDuplicate, cleanupEntries, hnotin,
      lookupEntry, hin, hout, setEntry]
  · intro m hu
    constructor
    · intro htrue
      unfold dedupIsDuplicate at htrue
      rcases hl : lookupEntry (cleanupEntries window t0 m) h with _ | ts
      · simp [hl] at htrue
      · refine ⟨ts, ?_, ?_⟩
        · exact (cleanupEntries_mem.mp (lookupEntry_mem hl)).1
        · simpa [hl] using htrue
    · rintro ⟨ts, hmem, hts⟩
      have hkeep : (h, ts) ∈ cleanupEntries window t0 m :=
        cleanupEntries_mem.mpr ⟨hmem, by simp; omega⟩
      have hl := lookupEntry_some_of_mem (cleanupEntries_pairwise hu) hkeep
      simp [dedupIsDuplicate, hl, hts]
  · intro m e hmem
    unfold dedupIsDuplicate at hmem
    rcases hl : lookupEntry (cleanupEntries window t0 m) h with _ | ts
    · simp only [hl] at hmem
      rcases setEntry_mem hmem with hm | hm
      · have := (cleanupEntries_mem.mp hm).2
        omega
      · subst hm; simp
    · simp only [hl] at hmem
      have := (cleanupEntries_mem.mp hmem).2
      omega

/-- Witness for `dedup_window_behaviour` at the capture tracker's 10 s
window with concrete times 0, 4000, 15000. -/
theorem dedup_window_behaviour_witness :
    (dedupIsDuplicate 10000 [] "text-u-abc" 0).1 = false ∧
    (dedupIsDuplicate 10000 (dedupIsDuplicate 10000 [] "text-u-abc" 0).2
      "text-u-abc" 4000).1 = true ∧
    (dedupIsDuplicate 10000
      (dedupIsDuplicate 10000 (dedupIsDuplicate 10000 [] "text-u-abc" 0).2
        "text-u-abc" 4000).2 "text-u-abc" 15000).1 = false := by
  have h := dedup_window_behaviour 10000 "text-u-abc" 0 4000 15000
    (Or.inl rfl) (by omega) (by omega) (by omega) (by omega)
  exact ⟨h.1, h.2.1, h.2.2.1⟩

/-! ### Capture Store (background `storeCapture`)

`storeCapture` reads the persisted `recentCaptures` array from
`browser.storage.local`, prepends the new message, trims to 100 and writes
back.  The storage value is modelled as `Option (List ExtMessage)` (absent
key = `undefined`); the `Array.isArray` guard maps a missing or non-array
value to `[]`. -/

/-- background `MAX_RECENT_CAPTURES`. -/
def MAX_RECENT_CAPTURES : Nat := 100

/-- The `Array.isArray(data.recentCaptures) ? data.recentCaptures : []`
guard of `storeCapture`. -/
def existingCaptures : Option (List ExtMessage) → List ExtMessage
  | some l => l
  | none => []

/-- background `storeCapture` (storage-success path): the list written back
to storage — prepend the message, then `slice(0, MAX_RECENT_CAPTURES)`. -/
def storeCapture (message : ExtMessage) (storage : Option (List ExtMessage)) :
    List ExtMessage :=
  (message :: existingCaptures storage).take MAX_RECENT_CAPTURES

/-- C5: `storeCapture` reads the current list, prepends the record and
truncates to the 100 most recent: the written list never exceeds 100
entries and always starts with the new record; on a store already at
capacity the oldest (last) record is dropped and the length stays 100;
prepend-and-trim preserves newest-first timestamp order whenever the new
record is at least as recent as the stored ones. -/
theorem storeCapture_bounded_newest_first :
    (∀ (message : ExtMessage) (storage : Option (List ExtMessage)),
      (storeCapture message storage).length ≤ MAX_RECENT_CAPTURES) ∧
    (∀ (message : ExtMessage) (storage : Option (List ExtMessage)),
      (storeCapture message storage).head? = some message) ∧
    (∀ (message : ExtMessage) (stored : List ExtMessage),
      stored.length = MAX_RECENT_CAPTURES →
      storeCapture message (some stored) = message :: stored.dropLast ∧
      (storeCapture message (some stored)).length = MAX_RECENT_CAPTURES) ∧
    (∀ (message : ExtMessage) (stored : List ExtMessage),
      (∀ x ∈ stored, x.mtimestamp ≤ message.mtimestamp) →
      stored.Pairwise (fun a b => b.mtimestamp ≤ a.mtimestamp) →
      (storeCapture message (some stored)).Pairwise
        (fun a b => b.mtimestamp ≤ a.mtimestamp)) := by
  refine ⟨?_, ?_, ?_, ?_⟩
  · intro message storage
    simpa [storeCapture] using
      List.length_take_le MAX_RECENT_CAPTURES
        (message :: existingCaptures storage)
  · intro message storage
    simp [storeCapture, existingCaptures, MAX_RECENT_CAPTURES]
  · intro message stored hlen
    constructor
    · have h1 : storeCapture message (some stored) = message :: stored.take 99 := by
        simp [storeCapture, existingCaptures, MAX_RECENT_CAPTURES]
      rw [h1, List.dropLast_eq_take, hlen]
      simp [MAX_RECENT_CAPTURES]
    · simp [storeCapture, existingCaptures, MAX_RECENT_CAPTURES, hlen]
  · intro message stored hnew hsorted
    have hall : (message :: stored).Pairwise
        (fun a b => b.mtimestamp ≤ a.mtimestamp) :=
      List.Pairwise.cons (fun x hx => hnew x hx) hsorted
    exact hall.sublist (List.take_sublist _ _)

/-- Witness for `storeCapture_bounded_newest_first`: a store holding 100
identical records is at capacity; appending drops one and keeps 100. -/
theorem storeCapture_bounded_newest_first_witness :
    (List.replicate 100 (ExtMessage.mk "capturedSelection" "contentScript"
        (some "old") (some "text") 5)).length = MAX_RECENT_CAPTURES ∧
    (storeCapture
      (ExtMessage.mk "capturedSelection" "contentScript" (some "new")
        (some "text") 9)
      (some (List.replicate 100 (ExtMessage.mk "capturedSelection"
        "contentScript" (some "old") (some "text") 5)))).length
      = MAX_RECENT_CAPTURES := by
  have h := (storeCapture_bounded_newest_first.2.2.1
    (ExtMessage.mk "capturedSelection" "contentScript" (some "new")
      (some "text") 9)
    (List.replicate 100 (ExtMessage.mk "capturedSelection" "contentScript"
      (some "old") (some "text") 5))
    (by simp [MAX_RECENT_CAPTURES])).2
  exact ⟨by simp [MAX_RECENT_CAPTURES], h⟩

/-! ### Content classifier (capture.ts `shouldUseHTMLCapture`,
`detectCaptureType`)

A selection fragment is modelled by its top-level `childNodes` and the
element list returned by `fragment.querySelectorAll('*')` (all descendant
elements in document order). -/

/-- A DOM element as the classifier sees it: its `tagName` (uppercase) and
the size of its `attributes` collection. -/
structure DomElement where
  tagName : String
  attrCount : Nat
deriving DecidableEq, Repr

/-- A top-level node of the cloned fragment. -/
inductive DomNode where
  | element (e : DomElement)
  | textNode (s : String)
deriving DecidableEq, Repr

/-- The cloned selection fragment. -/
structure Fragment where
  childNodes : List DomNode
  allElements : List DomElement
deriving DecidableEq, Repr

/-- The selection abstraction: `rangeCount`, `toString()` and the cloned
fragment of the first range. -/
structure SelectionModel where
  rangeCount : Nat
  textString : String
  fragment : Fragment
deriving DecidableEq, Repr

/-- The structureless wrapper allowlist of `shouldUseHTMLCapture`. -/
def wrapperTags : List String := ["BR", "P", "DIV", "SPAN"]

/-- The meaningful-HTML tag list of `shouldUseHTMLCapture`. -/
def htmlElementTags : List String :=
  ["A", "UL", "OL", "LI", "TABLE", "IMG", "H1", "H2", "H3", "H4", "H5", "H6",
   "STRONG", "EM", "CODE"]

/-- The Markdown-friendly tag list of `detectCaptureType`. -/
def markdownElementTags : List String :=
  ["H1", "H2", "H3", "H4", "H5", "H6", "P", "UL", "OL", "LI", "A", "CODE",
   "BLOCKQUOTE"]

/-- The specialised tags counted by
`fragment.querySelectorAll('img, video, canvas, svg, table, iframe')`. -/
def specialElementTags : List String :=
  ["IMG", "VIDEO", "CANVAS", "SVG", "TABLE", "IFRAME"]


/-- A top-level node counts as formatted content unless it is a text node
or an attribute-free wrapper element (`BR`, `P`, `DIV`, `SPAN`). -/
def nodeIsFormatted : DomNode → Bool
  | .textNode _ => false
  | .element e => !(decide (e.tagName ∈ wrapperTags) && decide (e.attrCount = 0))

/-- capture.ts `shouldUseHTMLCapture`: the selection benefits from HTML
capture when a top-level node is formatted content or any descendant is a
meaningful HTML element. -/
def shouldUseHTMLCapture (selection : SelectionModel) : Bool :=
  if selection.rangeCount = 0 then false
  else
    selection.fragment.childNodes.any nodeIsFormatted ||
    selection.fragment.allElements.any
      (fun e => decide (e.tagName ∈ htmlElementTags))

/-- The special-to-total element ratio test of `detectCaptureType`:
`specialRatio < 0.2` with `specialRatio = total > 0 ? special / total : 0`.
The floating-point comparison is expressed exactly over rationals as
`5 * special < total`. -/
def specialRatioBelowThreshold (special total : Nat) : Bool :=
  if total > 0 then decide (5 * special < total) else true

/-- capture.ts `detectCaptureType`: `none` for a missing, rangeless or
whitespace-only selection; TEXT when HTML capture is not warranted;
otherwise MARKDOWN when a Markdown-friendly element is present and the
special-element ratio is below 0.2, else HTML. -/
def detectCaptureType (selection : Option SelectionModel) : Option CaptureType :=
  match selection with
  | none => none
  | some s =>
    if s.rangeCount = 0 || jsTrim s.textString == "" then none
    else if shouldUseHTMLCapture s then
      let hasMarkdownElements := s.fragment.allElements.any
        (fun e => decide (e.tagName ∈ markdownElementTags))
      let totalElements := s.fragment.allElements.length
      let specialElements := (s.fragment.allElements.filter
        (fun e => decide (e.tagName ∈ specialElementTags))).length
      if hasMarkdownElements &&
          specialRatioBelowThreshold specialElements totalElements then
        some CaptureType.markdown
      else some CaptureType.html
    else some CaptureType.text

/-- A fragment made only of unattributed wrapper elements: every top-level
element node and every descendant element is an attribute-free `BR`, `P`,
`DIV` or `SPAN`. -/
def onlyUnattributedWrappers (f : Fragment) : Prop :=
  (∀ n ∈ f.childNodes, ∀ e, n = DomNode.element e →
    e.tagName ∈ wrapperTags ∧ e.attrCount = 0) ∧
  (∀ e ∈ f.allElements, e.tagName ∈ wrapperTags ∧ e.attrCount = 0)

theorem wrapper_not_htmlElement {t : String} (h : t ∈ wrapperTags) :
    t ∉ htmlElementTags := by
  simp only [wrapperTags, List.mem_cons, List.not_mem_nil, or_false] at h
  rcases h with h | h | h | h <;> rw [h] <;> decide

theorem shouldUseHTMLCapture_false_of_wrappers (s : SelectionModel)
    (hf : onlyUnattributedWrappers s.fragment) :
    shouldUseHTMLCapture s = false := by
  by_cases hr : s.rangeCount = 0
  · simp [shouldUseHTMLCapture, hr]
  · simp only [shouldUseHTMLCapture, if_neg hr, Bool.or_eq_false_iff]
    constructor
    · rw [List.any_eq_false]
      intro n hn
      cases n with
      | textNode t => simp [nodeIsFormatted]
      | element e =>
        rcases hf.1 _ hn e rfl with ⟨htag, hattr⟩
        simp [nodeIsFormatted, hattr, htag]
    · rw [List.any_eq_false]
      intro e he
      simpa using wrapper_not_htmlElement (hf.2 e he).1

/-- C3: the classifier returns `none` for an empty or whitespace-only
selection; a fragment of unattributed `BR`/`P`/`DIV`/`SPAN` wrappers is
TEXT-eligible (`shouldUseHTMLCapture` is `false`, and a non-empty such
selection classifies as TEXT); among selections needing formatting the
verdict is MARKDOWN exactly when a Markdown-friendly element is present
and the special-element ratio is below 0.2, otherwise HTML; the
`{H1, P, A, UL}` fragment with no special elements yields MARKDOWN and the
`{DIV, IMG}` fragment yields HTML. -/
theorem detectCaptureType_classification :
    (detectCaptureType none = none) ∧
    (∀ s : SelectionModel, s.rangeCount = 0 ∨ jsTrim s.textString = "" →
      detectCaptureType (some s) = none) ∧
    (∀ s : SelectionModel, onlyUnattributedWrappers s.fragment →
      shouldUseHTMLCapture s = false) ∧
    (∀ s : SelectionModel, onlyUnattributedWrappers s.fragment →
      ¬ s.rangeCount = 0 → ¬ jsTrim s.textString = "" →
      detectCaptureType (some s) = some CaptureType.text) ∧
    (∀ s : SelectionModel, ¬ s.rangeCount = 0 → ¬ jsTrim s.textString = "" →
      shouldUseHTMLCapture s = true →
      (detectCaptureType (some s) = some CaptureType.markdown ↔
        (∃ e ∈ s.fragment.allElements, e.tagName ∈ markdownElementTags) ∧
        specialRatioBelowThreshold
          ((s.fragment.allElements.filter
            (fun e => decide (e.tagName ∈ specialElementTags))).length)
          s.fragment.allElements.length = true)) ∧
    (detectCaptureType (some ⟨1, "Title body",
        ⟨[DomNode.element ⟨"H1", 0⟩],
         [⟨"H1", 0⟩, ⟨"P", 0⟩, ⟨"A", 1⟩, ⟨"UL", 0⟩]⟩⟩)
      = some CaptureType.markdown) ∧
    (detectCaptureType (some ⟨1, "picture",
        ⟨[DomNode.element ⟨"DIV", 0⟩],
         [⟨"DIV", 0⟩, ⟨"IMG", 2⟩]⟩⟩)
      = some CaptureType.html) := by
  refine ⟨rfl, ?_, fun s hf => shouldUseHTMLCapture_false_of_wrappers s hf,
    ?_, ?_, by decide, by decide⟩
  · intro s hs
    rcases hs with hs | hs
    · simp [detectCaptureType, hs]
    · simp [detectCaptureType, hs]
  · intro s hf hr ht
    simp [detectCaptureType, hr, ht,
      shouldUseHTMLCapture_false_of_wrappers s hf]
  · intro s hr ht huse
    have hexp : detectCaptureType (some s) =
        if (s.fragment.allElements.any
            (fun e => decide (e.tagName ∈ markdownElementTags))) &&
            specialRatioBelowThreshold
              ((s.fragment.allElements.filter
                (fun e => decide (e.tagName ∈ specialElementTags))).length)
              s.fragment.allElements.length then
          some CaptureType.markdown
        else some CaptureType.html := by
      simp [detectCaptureType, hr, ht, huse]
    rw [hexp]
    by_cases hcond : ((s.fragment.allElements.any
        (fun e => decide (e.tagName ∈ markdownElementTags))) &&
        specialRatioBelowThreshold
          ((s.fragment.allElements.filter
            (fun e => decide (e.tagName ∈ specialElementTags))).length)
          s.fragment.allElements.length) = true
    · rw [if_pos hcond]
      rcases Bool.and_eq_true_iff.mp hcond with ⟨h1, h2⟩
      rw [List.any_eq_true] at h1
      rcases h1 with ⟨e, he, hc⟩
      simp only [decide_eq_true_eq] at hc
      exact iff_of_true rfl ⟨⟨e, he, hc⟩, h2⟩
    · rw [if_neg hcond]
      constructor
      · intro hcontra
        exact absurd hcontra (by simp)
      · rintro ⟨⟨e, he, hmd⟩, hratio⟩
        exact absurd (Bool.and_eq_true_iff.mpr
          ⟨List.any_eq_true.mpr ⟨e, he, by simpa using hmd⟩, hratio⟩) hcond

/-- Witness for `detectCaptureType_classification`: a selection wrapping
plain text in an attribute-free `SPAN` is TEXT-eligible and classifies as
TEXT. -/
theorem detectCaptureType_classification_witness :
    shouldUseHTMLCapture ⟨1, "hello",
      ⟨[DomNode.element ⟨"SPAN", 0⟩], [⟨"SPAN", 0⟩]⟩⟩ = false ∧
    detectCaptureType (some ⟨1, "hello",
      ⟨[DomNode.element ⟨"SPAN", 0⟩], [⟨"SPAN", 0⟩]⟩⟩)
      = some CaptureType.text := by
  have hwrap : onlyUnattributedWrappers
      (⟨[DomNode.element ⟨"SPAN", 0⟩], [⟨"SPAN", 0⟩]⟩ : Fragment) := by
    constructor
    · rintro n hn e rfl
      simp only [List.mem_singleton] at hn
      rcases DomNode.element.inj hn with rfl
      exact ⟨by decide, rfl⟩
    · intro e he
      simp only [List.mem_singleton] at he
      rw [he]
      exact ⟨by decide, rfl⟩
  exact ⟨detectCaptureType_classification.2.2.1 _ hwrap,
    detectCaptureType_classification.2.2.2.1 _ hwrap
      (by decide) (by decide)⟩

/-! ### HTML → Markdown converter (capture.ts `htmlToMarkdown`)

The converter is a fixed sequence of `String.replace(regex, template)`
passes.  Each pass scans the original string left to right rebuilding the
output (JS `replace` with `/g` never rescans replacement text within a
pass).  The regex features used are embedded exactly: `/i` folds ASCII
case, `.` matches any character except a line terminator, `(.*?)` is lazy
(shortest match first, expanding on downstream failure), `[^>]*` is greedy
over non-`>` characters (it cannot backtrack past the first `>`), and
alternation tries branches left to right. -/

/-- Match a literal pattern case-insensitively (regex `/i` on ASCII),
returning the remaining input. -/
def dropLitCI : List Char → List Char → Option (List Char)
  | [], s => some s
  | _ :: _, [] => none
  | p :: ps, c :: cs => if p.toLower = c.toLower then dropLitCI ps cs else none

/-- Match a literal pattern case-sensitively, returning the remainder. -/
def dropLit : List Char → List Char → Option (List Char)
  | [], s => some s
  | _ :: _, [] => none
  | p :: ps, c :: cs => if p = c then dropLit ps cs else none

/-- JS line terminators, the characters regex `.` does not match. -/
def isLineTerm (c : Char) : Bool :=
  c = '\n' || c = '\r' || c.toNat = 8232 || c.toNat = 8233

/-- Consume regex `[^>]*>`: split at the first `>`, returning the part
before it and the remainder after it (`none` when no `>` follows; the
greedy class cannot cross a `>`, so the split is unique). -/
def splitAtGt : List Char → Option (List Char × List Char)
  | [] => none
  | c :: rest =>
    if c = '>' then some ([], rest)
    else
      match splitAtGt rest with
      | some (a, b) => some (c :: a, b)
      | none => none

/-- Lazy `(.*?)` followed by a closing matcher: the shortest run of
non-line-terminator characters after which `close` succeeds, returning
the captured body and the remainder after the close. -/
def lazyUpTo (close : List Char → Option (List Char)) :
    List Char → Option (List Char × List Char)
  | [] =>
    match close [] with
    | some rem => some ([], rem)
    | none => none
  | c :: rest =>
    match close (c :: rest) with
    | some rem => some ([], rem)
    | none =>
      if isLineTerm c then none
      else
        match lazyUpTo close rest with
        | some (body, rem) => some (c :: body, rem)
        | none => none

/-- The closing-tag alternation `<\/(nm1|nm2|…)>`, tried left to right. -/
def firstCloseMatch : List (List Char) → List Char → Option (List Char)
  | [], _ => none
  | nm :: rest, s =>
    match dropLitCI ('<' :: '/' :: (nm ++ ['>'])) s with
    | some rem => some rem
    | none => firstCloseMatch rest s

/-- One alternative of a tag-pair rule `<nm[^>]*>(.*?)<\/(close…)>` with
replacement `pre ++ body ++ post`. -/
def tryTagPairOne (nm : List Char) (closeNames : List (List Char))
    (pre post : List Char) (s : List Char) : Option (List Char × List Char) :=
  match dropLitCI ('<' :: nm) s with
  | none => none
  | some rest1 =>
    match splitAtGt rest1 with
    | none => none
    | some (_, after) =>
      match lazyUpTo (firstCloseMatch closeNames) after with
      | none => none
      | some (body, rem) => some (pre ++ body ++ post, rem)

/-- A tag-pair rule with an opening alternation, tried left to right. -/
def tryTagPair (openNames : List (List Char)) (closeNames : List (List Char))
    (pre post : List Char) (s : List Char) : Option (List Char × List Char) :=
  match openNames with
  | [] => none
  | nm :: restNames =>
    match tryTagPairOne nm closeNames pre post s with
    | some r => some r
    | none => tryTagPair restNames closeNames pre post s

/-- An opening-tag-only rule `<nm[^>]*>` with a fixed replacement. -/
def tryOpenTag (nm : List Char) (rep : List Char) (s : List Char) :
    Option (List Char × List Char) :=
  match dropLitCI ('<' :: nm) s with
  | none => none
  | some rest1 =>
    match splitAtGt rest1 with
    | none => none
    | some (_, after) => some (rep, after)

/-- The generic tag-stripping rule `<[^>]*>` → empty. -/
def tryAnyTag : List Char → Option (List Char × List Char)
  | [] => none
  | c :: rest =>
    if c = '<' then
      match splitAtGt rest with
      | some (_, after) => some ([], after)
      | none => none
    else none

/-- A case-sensitive literal rule (the entity replacements). -/
def tryLit (pat rep : List Char) (s : List Char) :
    Option (List Char × List Char) :=
  match dropLit pat s with
  | some rem => some (rep, rem)
  | none => none

/-- Length of the longest `>`-free leading run (the furthest the greedy
`[^>]*` of the anchor rule can reach). -/
def gtFreeLen : List Char → Nat
  | [] => 0
  | c :: rest => if c = '>' then 0 else gtFreeLen rest + 1

/-- The anchor rule after the closing quote of `href`: `[^>]*>(.*?)<\/a>`. -/
def anchorTail (s3 : List Char) : Option (List Char × List Char) :=
  match splitAtGt s3 with
  | none => none
  | some (_, s4) => lazyUpTo (dropLitCI ['<', '/', 'a', '>']) s4

/-- The lazy `(.*?)"` URL capture of the anchor rule, with backtracking:
on downstream failure the capture expands past the candidate quote to the
next one.  `fuel` bounds the scan by the input length. -/
def anchorUrlSearch : Nat → List Char → List Char →
    Option (List Char × List Char × List Char)
  | 0, _, _ => none
  | _ + 1, _, [] => none
  | fuel + 1, acc, c :: rest =>
    if c = '"' then
      match anchorTail rest with
      | some (body, rem) => some (acc.reverse, body, rem)
      | none => anchorUrlSearch fuel (c :: acc) rest
    else if isLineTerm c then none
    else anchorUrlSearch fuel (c :: acc) rest

/-- The greedy `[^>]*` before `href="`: split positions are tried longest
first (rightmost match wins), falling back on downstream failure. -/
def anchorHrefSearch (s1 : List Char) : Nat →
    Option (List Char × List Char × List Char)
  | 0 =>
    match dropLitCI ['h', 'r', 'e', 'f', '=', '"'] s1 with
    | some s2 => anchorUrlSearch (s2.length + 1) [] s2
    | none => none
  | i + 1 =>
    match dropLitCI ['h', 'r', 'e', 'f', '=', '"'] (s1.drop (i + 1)) with
    | some s2 =>
      match anchorUrlSearch (s2.length + 1) [] s2 with
      | some r => some r
      | none => anchorHrefSearch s1 i
    | none => anchorHrefSearch s1 i

/-- The anchor rule `<a[^>]*href="(.*?)"[^>]*>(.*?)<\/a>` with replacement
`[$2]($1)`. -/
def tryAnchor (s : List Char) : Option (List Char × List Char) :=
  match dropLitCI ['<', 'a'] s with
  | none => none
  | some s1 =>
    match anchorHrefSearch s1 (gtFreeLen s1) with
    | none => none
    | some (url, body, rem) =>
      some ('[' :: (body ++ [']', '('] ++ url ++ [')']), rem)

/-- One global-replace pass: scan left to right, emitting replacements and
resuming after each match.  Every successful match consumes at least one
character, so fuel equal to the input length suffices. -/
def scanReplace (rule : List Char → Option (List Char × List Char)) :
    Nat → List Char → List Char
  | 0, s => s
  | _ + 1, [] => []
  | fuel + 1, c :: rest =>
    match rule (c :: rest) with
    | some (rep, rem) => rep ++ scanReplace rule fuel rem
    | none => c :: scanReplace rule fuel rest

/-- Run one `replace(/…/g, …)` pass over a character list. -/
def runReplace (rule : List Char → Option (List Char × List Char))
    (s : List Char) : List Char :=
  scanReplace rule s.length s

/-- capture.ts `htmlToMarkdown`, pass by pass in source order: headings
h1–h6, paragraphs, anchors, strong/bold, em/italic, line breaks, generic
tag-stripping, then the five entity decodings. -/
def htmlToMarkdownChars (html : List Char) : List Char :=
  let s1 := runReplace (tryTagPair ["h1".data] ["h1".data] "# ".data "\n\n".data) html
  let s2 := runReplace (tryTagPair ["h2".data] ["h2".data] "## ".data "\n\n".data) s1
  let s3 := runReplace (tryTagPair ["h3".data] ["h3".data] "### ".data "\n\n".data) s2
  let s4 := runReplace (tryTagPair ["h4".data] ["h4".data] "#### ".data "\n\n".data) s3
  let s5 := runReplace (tryTagPair ["h5".data] ["h5".data] "##### ".data "\n\n".data) s4
  let s6 := runReplace (tryTagPair ["h6".data] ["h6".data] "###### ".data "\n\n".data) s5
  let s7 := runReplace (tryTagPair ["p".data] ["p".data] [] "\n\n".data) s6
  let s8 := runReplace tryAnchor s7
  let s9 := runReplace
    (tryTagPair ["strong".data, "b".data] ["strong".data, "b".data]
      "**".data "**".data) s8
  let s10 := runReplace
    (tryTagPair ["em".data, "i".data] ["em".data, "i".data]
      "*".data "*".data) s9
  let s11 := runReplace (tryOpenTag "br".data "\n".data) s10
  let s12 := runReplace tryAnyTag s11
  let s13 := runReplace (tryLit "&nbsp;".data " ".data) s12
  let s14 := runReplace (tryLit "&amp;".data "&".data) s13
  let s15 := runReplace (tryLit "&lt;".data "<".data) s14
  let s16 := runReplace (tryLit "&gt;".data ">".data) s15
  runReplace (tryLit "&quot;".data "\"".data) s16

/-- capture.ts `htmlToMarkdown` on strings. -/
def htmlToMarkdown (html : String) : String :=
  String.mk (htmlToMarkdownChars html.data)

/-- Characters that count as trailing newlines for the round-trip reading
"modulo trailing newline". -/
def dropTrailingNewlines (s : String) : String :=
  String.mk ((s.data.reverse.dropWhile (fun c => c = '\n')).reverse)

/-- C4: `htmlToMarkdown` is a total Lean function (hence pure,
deterministic and exception-free) realising the documented rules: headings
become `#`-prefixed lines, paragraphs a line plus blank line, anchors
`[text](href)`, bold/italic `**`/`*` wrapping, `<br>` a newline, leftover
tags stripped, entities decoded; headings and anchors are converted before
generic tag-stripping (their markup survives, as the `<h2 class>` and
attributed-anchor cases show), and the round-trip example yields
`Hello **world**` modulo trailing newline. -/
theorem htmlToMarkdown_rules :
    htmlToMarkdown "<p>Hello <strong>world</strong></p>"
      = "Hello **world**\n\n" ∧
    dropTrailingNewlines (htmlToMarkdown "<p>Hello <strong>world</strong></p>")
      = "Hello **world**" ∧
    htmlToMarkdown "<h1>Title</h1>" = "# Title\n\n" ∧
    htmlToMarkdown "<H2 class=\"big\">Head</H2>" = "## Head\n\n" ∧
    htmlToMarkdown "<a href=\"https://x.y\">link</a>" = "[link](https://x.y)" ∧
    htmlToMarkdown "<a class=\"z\" href=\"u\" id=\"k\">t</a>" = "[t](u)" ∧
    htmlToMarkdown "<em>it</em>" = "*it*" ∧
    htmlToMarkdown "a<br>b" = "a\nb" ∧
    htmlToMarkdown "<span>z</span>" = "z" ∧
    htmlToMarkdown "&amp; &lt;tag&gt; &quot;q&quot;&nbsp;!"
      = "& <tag> \"q\" !" := by
  refine ⟨?_, ?_, ?_, ?_, ?_, ?_, ?_, ?_, ?_, ?_⟩ <;> decide

/-! ### Page-side extraction (capture.ts capture functions)

The DOM environment of the page context is passed explicitly.  Side
effects (outbound `browser.runtime.sendMessage`, toast notifications, the
capture-tracker `set`) are returned as an effect list; an exception thrown
by DOM access is an `Except.error`.  `extractPageMetadata` and
`extractSelectionStyles` catch internally and are modelled by
environment-supplied results; the full-page main-content selector
heuristic is likewise abstracted into `fullPageContent` (no claim
inspects it). -/

/-- One observable side effect of the page-side capture functions. -/
inductive PageEffect where
  | sentMessage (messageType : String) (mtype : CaptureType) (content : String)
  | captureToast (label : String) (preview : String)
  | errorToast (title : String)
  | trackedCapture (hash : String)
deriving DecidableEq, Repr

/-- The page context as the capture functions observe it. -/
structure PageEnv where
  selection : Option SelectionModel
  fragmentHtml : String
  title : String
  url : String
  now : Nat
  pageMetadata : List (String × String)
  styling : List (String × String)
  fullPageContent : String
  screenshotResult : Option String
  domFault : Option String
deriving DecidableEq, Repr

/-- The shared guard `!selection || selection.rangeCount === 0 ||
selection.toString().trim() === ''`. -/
def selectionEmpty (env : PageEnv) : Bool :=
  match env.selection with
  | none => true
  | some s => decide (s.rangeCount = 0) || jsTrim s.textString == ""

/-- capture.ts `captureTextSelection(showToast, sendMessage)`: `none` for
an empty selection; otherwise a TEXT record from the selected text, with
an outbound send (when `sendMessage`) and a toast (when `showToast`).
DOM access after the guard throws when the environment is faulted. -/
def captureTextSelection (showToast sendMessage : Bool) (env : PageEnv) :
    Except String (Option CapturedContent × List PageEffect) :=
  match env.selection with
  | none => .ok (none, [])
  | some s =>
    if decide (s.rangeCount = 0) || jsTrim s.textString == "" then .ok (none, [])
    else
      match env.domFault with
      | some e => .error e
      | none =>
        let record : CapturedContent :=
          ⟨CaptureType.text, s.textString, env.title, env.url, env.now,
            env.pageMetadata ++ env.styling⟩
        .ok (some record,
          (if sendMessage then
            [PageEffect.sentMessage "capturedSelection" CaptureType.text
              s.textString]
          else []) ++
          (if showToast then [PageEffect.captureToast "Text" s.textString]
          else []))

/-- capture.ts `captureHtmlSelection(showToast, sendMessage)`: like the
text path but the content is the serialised cloned range
(`wrapper.innerHTML`, supplied as `env.fragmentHtml`). -/
def captureHtmlSelection (showToast sendMessage : Bool) (env : PageEnv) :
    Except String (Option CapturedContent × List PageEffect) :=
  match env.selection with
  | none => .ok (none, [])
  | some s =>
    if decide (s.rangeCount = 0) || jsTrim s.textString == "" then .ok (none, [])
    else
      match env.domFault with
      | some e => .error e
      | none =>
        let record : CapturedContent :=
          ⟨CaptureType.html, env.fragmentHtml, env.title, env.url, env.now,
            env.pageMetadata ++ env.styling⟩
        .ok (some record,
          (if sendMessage then
            [PageEffect.sentMessage "capturedSelection" CaptureType.html
              env.fragmentHtml]
          else []) ++
          (if showToast then
            [PageEffect.captureToast "HTML" env.fragmentHtml]
          else []))

/-- capture.ts `captureMarkdownSelection(showNotification)`: invokes
`captureHtmlSelection(false)` — the toast flag is passed as `false` but the
`sendMessage` flag keeps its default `true` — then converts the HTML
content with `htmlToMarkdown`, reusing the HTML capture's metadata; when
`showNotification` it sends the markdown record and shows its toast. -/
def captureMarkdownSelection (showNotification : Bool) (env : PageEnv) :
    Except String (Option CapturedContent × List PageEffect) :=
  match captureHtmlSelection false true env with
  | .error e => .error e
  | .ok (none, effs) => .ok (none, effs)
  | .ok (some htmlContent, effs) =>
    let markdownContent := htmlToMarkdown htmlContent.content
    let record : CapturedContent :=
      ⟨CaptureType.markdown, markdownContent, htmlContent.title,
        htmlContent.url, env.now, htmlContent.metadata⟩
    if showNotification then
      .ok (some record, effs ++
        [PageEffect.sentMessage "capturedSelection" CaptureType.markdown
          markdownContent,
         PageEffect.captureToast "Markdown" markdownContent])
    else .ok (some record, effs)

/-- capture.ts `captureFullPage`: no selection needed; its own try/catch
converts any exception to `null` plus an error toast. -/
def captureFullPage (env : PageEnv) :
    Option CapturedContent × List PageEffect :=
  match env.domFault with
  | some _ => (none, [PageEffect.errorToast "Error capturing page"])
  | none =>
    (some ⟨CaptureType.fullpage, env.fullPageContent, env.title, env.url,
      env.now, env.pageMetadata⟩, [])

/-- capture.ts `captureScreenshot` (resolved value): never rejects; on any
failure it resolves `null` after showing an error toast, on success it
resolves the data-URI record and shows the capture toast. -/
def captureScreenshot (env : PageEnv) :
    Option CapturedContent × List PageEffect :=
  match env.screenshotResult with
  | none => (none, [PageEffect.errorToast "Screenshot Failed"])
  | some dataUrl =>
    (some ⟨CaptureType.screenshot, dataUrl, env.title, env.url, env.now,
      env.pageMetadata⟩,
     [PageEffect.captureToast "Screenshot" dataUrl])

/-- The dispatch switch inside `captureContent`, before its try/catch:
each requested type invokes its capture function (selection-based ones
with `showToast = false`, leaving `sendMessage` at its default `true`). -/
def captureByType (t : CaptureType) (env : PageEnv) :
    Except String (Option CapturedContent × List PageEffect) :=
  match t with
  | .text => captureTextSelection false true env
  | .html => captureHtmlSelection false true env
  | .markdown => captureMarkdownSelection false env
  | .fullpage => .ok (captureFullPage env)
  | .screenshot => .ok (captureScreenshot env)

/-- capture.ts `captureContent(type, showToastNotification)`: wraps the
dispatch in try/catch (an exception becomes `null` plus an optional
failure toast); a captured record is recorded in the capture tracker and
sent to the background, with an optional toast for non-screenshot types;
a missing non-screenshot capture shows the no-content toast. -/
def captureContent (t : CaptureType) (showToastNotification : Bool)
    (env : PageEnv) : Option CapturedContent × List PageEffect :=
  match captureByType t env with
  | .error _ =>
    (none, if showToastNotification then
      [PageEffect.errorToast "Capture failed"] else [])
  | .ok (none, effs) =>
    match t with
    | .screenshot => (none, effs)
    | _ =>
      (none, effs ++ (if showToastNotification then
        [PageEffect.errorToast "No content captured"] else []))
  | .ok (some c, effs) =>
    match t with
    | .screenshot =>
      (some c, effs ++
        [PageEffect.trackedCapture (captureTracker.getContentHash c),
         PageEffect.sentMessage "capturedSelection" c.type c.content])
    | _ =>
      (some c, effs ++
        [PageEffect.trackedCapture (captureTracker.getContentHash c),
         PageEffect.sentMessage "capturedSelection" c.type c.content] ++
        (if showToastNotification then
          [PageEffect.captureToast "Captured" c.content] else []))

/-- Is an effect an outbound message send? -/
def effectIsSend : PageEffect → Bool
  | .sentMessage _ _ _ => true
  | _ => false

/-- Is an effect an outbound send of an HTML-typed capture? -/
def effectIsHtmlSend : PageEffect → Bool
  | .sentMessage _ t _ => t == CaptureType.html
  | _ => false

/-- A concrete page environment: the selection "hi" inside a `<b>`
element. -/
def envBold : PageEnv :=
  ⟨some ⟨1, "hi", ⟨[DomNode.element ⟨"B", 0⟩], [⟨"B", 0⟩]⟩⟩,
   "<b>hi</b>", "T", "u", 1000, [], [], "", none, none⟩

/-- The effect list of a markdown capture (with notification) in
`envBold`. -/
def envBoldMarkdownEffects : List PageEffect :=
  match captureMarkdownSelection true envBold with
  | .ok (_, effs) => effs
  | .error _ => []

/-- C7 (counterexample): the claim says the internally invoked HTML
extraction path emits no duplicate message send, but on the concrete
selection `<b>hi</b>` a markdown capture emits two sends — the
intermediate HTML capture's own `capturedSelection` send (the
`sendMessage` flag keeps its default `true`) plus the markdown send. -/
theorem captureMarkdownSelection_duplicate_send_counterexample :
    (envBoldMarkdownEffects.filter effectIsSend).length = 2 ∧
    (envBoldMarkdownEffects.filter effectIsHtmlSend).length = 1 ∧
    PageEffect.sentMessage "capturedSelection" CaptureType.html "<b>hi</b>"
      ∈ envBoldMarkdownEffects := by
  refine ⟨?_, ?_, ?_⟩ <;> decide

theorem captureTextSelection_empty (st sm : Bool) (env : PageEnv)
    (h : selectionEmpty env = true) :
    captureTextSelection st sm env = .ok (none, []) := by
  unfold captureTextSelection
  cases hsel : env.selection with
  | none => rfl
  | some s =>
    have hguard : (decide (s.rangeCount = 0) || jsTrim s.textString == "") = true := by
      simpa [selectionEmpty, hsel] using h
    simp [hguard]

theorem captureHtmlSelection_empty (st sm : Bool) (env : PageEnv)
    (h : selectionEmpty env = true) :
    captureHtmlSelection st sm env = .ok (none, []) := by
  unfold captureHtmlSelection
  cases hsel : env.selection with
  | none => rfl
  | some s =>
    have hguard : (decide (s.rangeCount = 0) || jsTrim s.textString == "") = true := by
      simpa [selectionEmpty, hsel] using h
    simp [hguard]

theorem captureMarkdownSelection_empty (b : Bool) (env : PageEnv)
    (h : selectionEmpty env = true) :
    captureMarkdownSelection b env = .ok (none, []) := by
  unfold captureMarkdownSelection
  rw [captureHtmlSelection_empty false true env h]

theorem captureHtmlSelection_nonempty (st sm : Bool) (env : PageEnv)
    (s : SelectionModel) (hsel : env.selection = some s)
    (hr : ¬ s.rangeCount = 0) (ht : ¬ jsTrim s.textString = "")
    (hd : env.domFault = none) :
    captureHtmlSelection st sm env = .ok
      (some ⟨CaptureType.html, env.fragmentHtml, env.title, env.url, env.now,
        env.pageMetadata ++ env.styling⟩,
       (if sm then
         [PageEffect.sentMessage "capturedSelection" CaptureType.html
           env.fragmentHtml] else []) ++
       (if st then [PageEffect.captureToast "HTML" env.fragmentHtml]
        else [])) := by
  unfold captureHtmlSelection
  rw [hsel]
  have hguard : (decide (s.rangeCount = 0) || jsTrim s.textString == "") = false := by
    simp [hr, ht]
  simp [hguard, hd]

/-- C7 (amended): `captureMarkdownSelection` invokes the HTML extraction
path with its toast suppressed — no intermediate "HTML" notification is
emitted — but the intermediate capture still performs its own message send
(the `sendMessage` flag keeps its default `true`); the markdown record
applies `htmlToMarkdown` to the HTML content; and a missing or empty
selection yields `none` with no effects. -/
theorem captureMarkdownSelection_amended :
    (∀ (b : Bool) (env : PageEnv) (s : SelectionModel),
      env.selection = some s → ¬ s.rangeCount = 0 →
      ¬ jsTrim s.textString = "" → env.domFault = none →
      ∃ record effs,
        captureMarkdownSelection b env = .ok (some record, effs) ∧
        record.type = CaptureType.markdown ∧
        record.content = htmlToMarkdown env.fragmentHtml ∧
        PageEffect.sentMessage "capturedSelection" CaptureType.html
          env.fragmentHtml ∈ effs ∧
        (∀ p, PageEffect.captureToast "HTML" p ∉ effs)) ∧
    (∀ (b : Bool) (env : PageEnv), selectionEmpty env = true →
      captureMarkdownSelection b env = .ok (none, [])) := by
  constructor
  · intro b env s hsel hr ht hd
    have hhtml := captureHtmlSelection_nonempty false true env s hsel hr ht hd
    simp only [if_true, if_false, List.append_nil] at hhtml
    unfold captureMarkdownSelection
    rw [hhtml]
    cases b with
    | true =>
      refine ⟨_, _, rfl, rfl, rfl, ?_, ?_⟩
      · simp
      · intro p
        simp
    | false =>
      refine ⟨_, _, rfl, rfl, rfl, ?_, ?_⟩
      · simp
      · intro p
        simp
  · exact fun b env h => captureMarkdownSelection_empty b env h

/-- Witness for `captureMarkdownSelection_amended` at the concrete
`<b>hi</b>` selection environment. -/
theorem captureMarkdownSelection_amended_witness :
    (∃ record effs,
      captureMarkdownSelection true envBold = .ok (some record, effs) ∧
      record.type = CaptureType.markdown ∧
      record.content = htmlToMarkdown "<b>hi</b>" ∧
      PageEffect.sentMessage "capturedSelection" CaptureType.html "<b>hi</b>"
        ∈ effs ∧
      (∀ p, PageEffect.captureToast "HTML" p ∉ effs)) ∧
    captureMarkdownSelection true
      ⟨none, "", "T", "u", 0, [], [], "", none, none⟩ = .ok (none, []) := by
  constructor
  · exact captureMarkdownSelection_amended.1 true envBold
      ⟨1, "hi", ⟨[DomNode.element ⟨"B", 0⟩], [⟨"B", 0⟩]⟩⟩
      (by decide) (by decide) (by decide) (by decide)
  · exact captureMarkdownSelection_amended.2 true
      ⟨none, "", "T", "u", 0, [], [], "", none, none⟩ (by decide)

/-- C10: extraction never propagates an exception out of `captureContent`:
an empty or whitespace-only selection for a selection-based type yields the
no-content result `none` (not an exception), and any exception raised by
the dispatched capture path is caught and converted to `none`. -/
theorem captureContent_failure_containment :
    (∀ (t : CaptureType) (b : Bool) (env : PageEnv),
      t = CaptureType.text ∨ t = CaptureType.html ∨ t = CaptureType.markdown →
      selectionEmpty env = true →
      (captureContent t b env).1 = none) ∧
    (∀ (t : CaptureType) (b : Bool) (env : PageEnv) (e : String),
      captureByType t env = .error e →
      (captureContent t b env).1 = none) := by
  constructor
  · intro t b env hsel hempty
    rcases hsel with rfl | rfl | rfl
    · simp [captureContent, captureByType,
        captureTextSelection_empty false true env hempty]
    · simp [captureContent, captureByType,
        captureHtmlSelection_empty false true env hempty]
    · simp [captureContent, captureByType,
        captureMarkdownSelection_empty false env hempty]
  · intro t b env e herr
    simp [captureContent, herr]

/-- Witness for `captureContent_failure_containment`: a faulted DOM makes
the HTML path throw, and `captureContent` still returns `none`; an empty
selection likewise. -/
theorem captureContent_failure_containment_witness :
    (captureContent CaptureType.html true
      ⟨some ⟨1, "hi", ⟨[], []⟩⟩, "<b>hi</b>", "T", "u", 0, [], [], "",
        none, some "boom"⟩).1 = none ∧
    (captureContent CaptureType.text true
      ⟨none, "", "T", "u", 0, [], [], "", none, none⟩).1 = none := by
  constructor
  · exact captureContent_failure_containment.2 CaptureType.html true
      ⟨some ⟨1, "hi", ⟨[], []⟩⟩, "<b>hi</b>", "T", "u", 0, [], [], "",
        none, some "boom"⟩ "boom" (by rfl)
  · exact captureContent_failure_containment.1 CaptureType.text true
      ⟨none, "", "T", "u", 0, [], [], "", none, none⟩ (Or.inl rfl) (by decide)

/-! ### Outbound send retry (capture.ts `sendCapturedContent`)

`sendCapturedContent` builds one `capturedSelection` message and runs
`attemptSend`: on any send failure it retries after `200 * (retryCount+1)`
milliseconds while `retryCount < maxRetries` (`maxRetries = 2`), then gives
up with an error toast.  The failure pattern of the platform send is an
oracle `fails : Nat → Bool` indexed by retry count. -/

/-- The `maxRetries` default of `attemptSend`. -/
def sendMaxRetries : Nat := 2

/-- The message built by `sendCapturedContent` for a captured record:
`messageType: capturedSelection`, `from: contentScript`, the content, and
the capture type (plus timestamp) in the metadata. -/
def sendCapturedContentMessage (c : CapturedContent) : ExtMessage :=
  ⟨"capturedSelection", "contentScript", some c.content, some c.type.toStr,
    c.timestamp⟩

/-- The observable outcome of a `sendCapturedContent` run: how many send
attempts were made, the backoff delay before each retry, and whether a
send succeeded before the attempts were exhausted. -/
structure SendOutcome where
  attempts : Nat
  retryDelays : List Nat
  delivered : Bool
deriving DecidableEq, Repr

/-- capture.ts `attemptSend(retryCount, maxRetries)`: try the platform
send; on failure retry after `200 * (retryCount + 1)` ms while below the
cap, else abandon.  `fuel` bounds the recursion by the attempt cap. -/
def attemptSend (fails : Nat → Bool) (maxRetries : Nat) :
    Nat → Nat → SendOutcome
  | 0, _ => ⟨0, [], false⟩
  | fuel + 1, retryCount =>
    if fails retryCount then
      if retryCount < maxRetries then
        let rest := attemptSend fails maxRetries fuel (retryCount + 1)
        ⟨rest.attempts + 1, 200 * (retryCount + 1) :: rest.retryDelays,
          rest.delivered⟩
      else ⟨1, [], false⟩
    else ⟨1, [], true⟩

/-- capture.ts `sendCapturedContent`: start `attemptSend` at retry count 0
with the default cap of 2. -/
def sendCapturedContent (fails : Nat → Bool) : SendOutcome :=
  attemptSend fails sendMaxRetries (sendMaxRetries + 1) 0

/-- C8 (counterexample): the claim says retries are applied only to the
idempotent capture-requested kind and never to capture-reported kinds, but
`sendCapturedContent` — which sends a `capturedSelection` (capture-
reported) message — retries a persistently failing send twice (three
attempts, with 200 ms then 400 ms backoff) before abandoning it. -/
theorem sendCapturedContent_retries_capture_reported :
    (sendCapturedContentMessage
      ⟨CaptureType.text, "The quick brown fox", "Test Page",
        "https://example.com", 0, []⟩).messageType = "capturedSelection" ∧
    sendCapturedContent (fun _ => true) = ⟨3, [200, 400], false⟩ := by
  exact ⟨rfl, rfl⟩

/-- C8 (amended): the retry loop of `sendCapturedContent` — which sends
capture-reported `capturedSelection` messages — retries any failing send
with linear backoff `200 ms × attempt` up to the fixed cap of 2 retries:
a first-attempt success makes exactly one attempt with no delays, each
retry `k` is preceded by a `200 * k` ms delay, at most 3 attempts are ever
made, and the send is delivered iff one of the first three attempts
succeeds. -/
theorem sendCapturedContent_linear_backoff (fails : Nat → Bool)
    (c : CapturedContent) :
    (sendCapturedContentMessage c).messageType = "capturedSelection" ∧
    (fails 0 = false → sendCapturedContent fails = ⟨1, [], true⟩) ∧
    (fails 0 = true → fails 1 = false →
      sendCapturedContent fails = ⟨2, [200], true⟩) ∧
    (fails 0 = true → fails 1 = true → fails 2 = false →
      sendCapturedContent fails = ⟨3, [200, 400], true⟩) ∧
    (fails 0 = true → fails 1 = true → fails 2 = true →
      sendCapturedContent fails = ⟨3, [200, 400], false⟩) ∧
    (sendCapturedContent fails).attempts ≤ sendMaxRetries + 1 := by
  refine ⟨rfl, ?_, ?_, ?_, ?_, ?_⟩
  · intro h0
    simp [sendCapturedContent, attemptSend, sendMaxRetries, h0]
  · intro h0 h1
    simp [sendCapturedContent, attemptSend, sendMaxRetries, h0, h1]
  · intro h0 h1 h2
    simp [sendCapturedContent, attemptSend, sendMaxRetries, h0, h1, h2]
  · intro h0 h1 h2
    simp [sendCapturedContent, attemptSend, sendMaxRetries, h0, h1, h2]
  · rcases h0 : fails 0 <;> rcases h1 : fails 1 <;> rcases h2 : fails 2 <;>
      simp [sendCapturedContent, attemptSend, sendMaxRetries, h0, h1, h2]

/-- Witness for `sendCapturedContent_linear_backoff`: a send that fails
once then succeeds is retried exactly once after 200 ms. -/
theorem sendCapturedContent_linear_backoff_witness :
    sendCapturedContent (fun k => decide (k = 0)) = ⟨2, [200], true⟩ := by
  exact (sendCapturedContent_linear_backoff (fun k => decide (k = 0))
    ⟨CaptureType.text, "x", "t", "u", 0, []⟩).2.2.1 (by decide) (by decide)

/-! ### Background message router (background `onMessage` listener)

The listener state: the processed-message id map, the content dedup map,
the persisted `recentCaptures` storage entry, the in-memory fallback
array, and the panel-open flag.  The probabilistic 10 % cleanup rolls and
the storage success of each `storeCapture` are inputs.  Each storage
read-modify-write is modelled as completing before the next begins. -/

/-- background `MESSAGE_EXPIRY_TIME` (10 seconds). -/
def MESSAGE_EXPIRY_TIME : Nat := 10000

/-- background `generateMessageId`: message type, `metadata.type`, and the
first 40 characters of the whitespace-stripped 100-character content
sample. -/
def generateMessageId (m : ExtMessage) : String :=
  m.messageType ++ "-" ++ (m.mtype.getD "") ++ "-" ++
    jsTake 40 (stripWs (jsTake 100 (m.content.getD "")))

/-- background `cleanupProcessedMessages`: drop ids whose timestamp is
older than `now - MESSAGE_EXPIRY_TIME`. -/
def cleanupProcessedMessages (now : Nat) (pm : DedupMap) : DedupMap :=
  pm.filter (fun e => decide (¬ e.2 < now - MESSAGE_EXPIRY_TIME))

/-- background `isMessageProcessed`: report `true` when the id is already
recorded; otherwise record it (and, on the 10 % roll, clean up). -/
def isMessageProcessed (pm : DedupMap) (m : ExtMessage) (now : Nat)
    (roll : Bool) : Bool × DedupMap :=
  let id := generateMessageId m
  match lookupEntry pm id with
  | some _ => (true, pm)
  | none =>
    let pm1 := setEntry pm id now
    (false, if roll then cleanupProcessedMessages now pm1 else pm1)

/-- The background listener state. -/
structure BgState where
  processedMessages : DedupMap
  recentMessages : DedupMap
  storage : Option (List ExtMessage)
  recentCaptures : List ExtMessage
  isSidePanelOpen : Bool
deriving DecidableEq, Repr

/-- The background state at service-worker start. -/
def initialBgState : BgState := ⟨[], [], none, [], false⟩

/-- An observable effect of the background listener. -/
inductive BgEffect where
  | sentToPanel (m : ExtMessage) (delayMs : Nat)
  | storedToStorage (m : ExtMessage)
  | storedToMemory (m : ExtMessage)
deriving DecidableEq, Repr

/-- How the listener disposed of a message. -/
inductive BgOutcome where
  | duplicateId
  | duplicateContent
  | handled
deriving DecidableEq, Repr

/-- The in-memory fallback of `storeCapture`: `unshift` then `pop` when
over the cap. -/
def memoryStoreCapture (m : ExtMessage) (mem : List ExtMessage) :
    List ExtMessage :=
  let mem1 := m :: mem
  if mem1.length > MAX_RECENT_CAPTURES then mem1.dropLast else mem1

/-- The two `storeCapture` read-modify-write cycles started for one
accepted `capturedSelection` — one by the listener directly, one inside
`ensurePanelOpenAndSendMessage` — overlap: both `storage.local.get`
requests are issued synchronously in the listener task before either
`.then` continuation can run its write, so both reads observe the
pre-delivery storage and both writes store the same prepended-and-trimmed
list; the second write overwrites the first with an identical value and
the store gains exactly one record.  On the failure path both `.catch`
handlers push into the synchronous in-memory array, which does accumulate
both pushes. -/
def doubleStoreCapture (storageOk : Bool) (m : ExtMessage) (st : BgState) :
    BgState × List BgEffect :=
  if storageOk then
    ({st with storage := some (storeCapture m st.storage)},
     [BgEffect.storedToStorage m, BgEffect.storedToStorage m])
  else
    ({st with recentCaptures :=
        memoryStoreCapture m (memoryStoreCapture m st.recentCaptures)},
     [BgEffect.storedToMemory m, BgEffect.storedToMemory m])

/-- The `forEach`/`setTimeout` loop of `sendAllCapturesToSidePanel`: the
capture at index `i` is sent after `i * 100` milliseconds. -/
def scheduleSends : Nat → List ExtMessage → List BgEffect
  | _, [] => []
  | i, m :: rest => BgEffect.sentToPanel m (i * 100) :: scheduleSends (i + 1) rest

/-- background `sendAllCapturesToSidePanel`: replay the in-memory
`recentCaptures` array, one send per 100 ms. -/
def sendAllCapturesToSidePanel (st : BgState) : List BgEffect :=
  scheduleSends 0 st.recentCaptures

/-- The background `browser.runtime.onMessage` listener: reject ids seen
before (`isMessageProcessed`), record the id, then dispatch — a
`capturedSelection` passes the content dedup filter (when its
`metadata.type` is truthy), runs the two overlapping `storeCapture`
cycles (the listener's own call and the one inside
`ensurePanelOpenAndSendMessage`, whose reads both precede both writes),
and is forwarded to the panel when it is open; `sidePanelLoaded` marks
the panel open and replays the in-memory captures. -/
def onMessage (st : BgState) (m : ExtMessage) (now : Nat)
    (roll1 roll2 storageOk : Bool) : BgState × BgOutcome × List BgEffect :=
  let checked := isMessageProcessed st.processedMessages m now roll1
  if checked.1 then
    ({st with processedMessages := checked.2}, BgOutcome.duplicateId, [])
  else
    let pm1 := setEntry checked.2 (generateMessageId m) now
    let pm2 := if roll2 then cleanupProcessedMessages now pm1 else pm1
    let st1 := {st with processedMessages := pm2}
    if m.messageType = "capturedSelection" then
      let mtypeTruthy := match m.mtype with
        | some s => decide (¬ s = "")
        | none => false
      if mtypeTruthy then
        let d := messageDeduplication.isDuplicate st1.recentMessages m now
        let st2 := {st1 with recentMessages := d.2}
        if d.1 then (st2, BgOutcome.duplicateContent, [])
        else
          let r := doubleStoreCapture storageOk m st2
          (r.1, BgOutcome.handled, r.2 ++
            (if r.1.isSidePanelOpen then [BgEffect.sentToPanel m 0] else []))
      else
        let r := doubleStoreCapture storageOk m st1
        (r.1, BgOutcome.handled, r.2 ++
          (if r.1.isSidePanelOpen then [BgEffect.sentToPanel m 0] else []))
    else if m.messageType = "sidePanelLoaded" then
      let st2 := {st1 with isSidePanelOpen := true}
      (st2, BgOutcome.handled, sendAllCapturesToSidePanel st2)
    else (st1, BgOutcome.handled, [])

/-- The capture-reported message of the C2 end-to-end scenario. -/
def c2Message : ExtMessage :=
  ⟨"capturedSelection", "contentScript", some "The quick brown fox",
    some "text", 0⟩

/-- First delivery of `c2Message` at t = 0, from the initial state. -/
def c2Step1 : BgState × BgOutcome × List BgEffect :=
  onMessage initialBgState c2Message 0 false false true

/-- Second delivery of the same message at t = 3000 (within 5 s). -/
def c2Step2 : BgState × BgOutcome × List BgEffect :=
  onMessage c2Step1.1 c2Message 3000 false false true

/-- C2: the same capture-reported message delivered twice within 5
seconds — the second delivery is rejected as a no-op by the processed-id
gate and the Capture Store contains exactly one corresponding record (the
accepted delivery's two overlapping `storeCapture` cycles both read the
pre-delivery storage, so the second write lands the same one-record
list); and in general any inbound message whose id
`(kind, type metadata, content prefix)` is still recorded is rejected
without processing — no effects, no state change — which covers every id
processed within the ~10 s expiry window, since cleanup evicts only
entries older than the window. -/
theorem background_duplicate_rejected_exactly_one_record :
    (c2Step1.2.1 = BgOutcome.handled ∧
     c2Step1.1.storage = some [c2Message] ∧
     (existingCaptures c2Step1.1.storage).length = 1 ∧
     c2Step2.2.1 = BgOutcome.duplicateId ∧
     c2Step2.2.2 = [] ∧
     c2Step2.1.storage = some [c2Message]) ∧
    (∀ (st : BgState) (m : ExtMessage) (now : Nat) (r1 r2 ok : Bool)
      (ts : Nat),
      lookupEntry st.processedMessages (generateMessageId m) = some ts →
      onMessage st m now r1 r2 ok = (st, BgOutcome.duplicateId, [])) ∧
    (∀ (pm : DedupMap) (now : Nat) (e : String × Nat), e ∈ pm →
      ¬ e.2 < now - MESSAGE_EXPIRY_TIME →
      e ∈ cleanupProcessedMessages now pm) := by
  refine ⟨by refine ⟨?_, ?_, ?_, ?_, ?_, ?_⟩ <;> decide, ?_, ?_⟩
  · intro st m now r1 r2 ok ts hts
    simp [onMessage, isMessageProcessed, hts]
  · intro pm now e he hts
    simp only [cleanupProcessedMessages, List.mem_filter, he, true_and,
      decide_eq_true_eq]
    omega

/-- Witness for `background_duplicate_rejected_exactly_one_record`: the
re-delivered C2 message is rejected unprocessed, and its id — recorded
3 s earlier, inside the 10 s window — survives a cleanup. -/
theorem background_duplicate_rejected_exactly_one_record_witness :
    onMessage c2Step1.1 c2Message 3000 false false true
      = (c2Step1.1, BgOutcome.duplicateId, []) ∧
    ("capturedSelection-text-Thequickbrownfox", 0) ∈
      cleanupProcessedMessages 3000 c2Step1.1.processedMessages := by
  constructor
  · exact background_duplicate_rejected_exactly_one_record.2.1
      c2Step1.1 c2Message 3000 false false true 0 (by decide)
  · exact background_duplicate_rejected_exactly_one_record.2.2
      c2Step1.1.processedMessages 3000
      ("capturedSelection-text-Thequickbrownfox", 0) (by decide) (by decide)

/-- The `sidePanelLoaded` message the panel sends on attach. -/
def sidePanelLoadedMessage : ExtMessage :=
  ⟨"sidePanelLoaded", "sidePanel", none, none, 0⟩

/-- Panel attach after the C2 capture was persisted to storage. -/
def c9PanelAttach : BgState × BgOutcome × List BgEffect :=
  onMessage c2Step1.1 sidePanelLoadedMessage 4000 false false true

/-- C9 (counterexample): a capture persisted via the Capture Store while
the panel was closed is NOT replayed by the background on the next panel
attach: `sendAllCapturesToSidePanel` iterates the in-memory fallback
array, which stays empty on the storage-success path, so the attach
produces no sends even though storage holds the capture. -/
theorem panel_attach_replay_counterexample :
    c9PanelAttach.2.1 = BgOutcome.handled ∧
    c9PanelAttach.1.isSidePanelOpen = true ∧
    c9PanelAttach.1.storage = some [c2Message] ∧
    c2Step1.1.recentCaptures = [] ∧
    c9PanelAttach.2.2 = [] := by
  refine ⟨?_, ?_, ?_, ?_, ?_⟩ <;> decide

theorem scheduleSends_length (l : List ExtMessage) (i : Nat) :
    (scheduleSends i l).length = l.length := by
  induction l generalizing i with
  | nil => rfl
  | cons a rest ih => simp [scheduleSends, ih]

theorem scheduleSends_lookup (l : List ExtMessage) (i j : Nat) :
    (scheduleSends i l).get? j =
      (l.get? j).map (fun m => BgEffect.sentToPanel m ((i + j) * 100)) := by
  induction l generalizing i j with
  | nil => simp [scheduleSends]
  | cons a rest ih =>
    cases j with
    | zero => simp [scheduleSends]
    | succ k =>
      have harith : i + 1 + k = i + (k + 1) := by omega
      simp only [scheduleSends, List.get?_cons_succ, ih (i + 1) k, harith]

/-- C9 (amended): on `sidePanelLoaded` the background marks the panel open
and replays only its in-memory fallback capture list (populated when a
storage write fails, which prepends the capture), serializing the sends at
one per 100 ms — the send at index `j` is delayed `j * 100` ms; captures
persisted to storage are untouched and not re-sent by the background (the
panel loads them from storage itself). -/
theorem panel_attach_replay_amended :
    (∀ (st : BgState) (now : Nat) (roll1 roll2 storageOk : Bool),
      lookupEntry st.processedMessages
        (generateMessageId sidePanelLoadedMessage) = none →
      (onMessage st sidePanelLoadedMessage now roll1 roll2 storageOk).1.isSidePanelOpen
        = true ∧
      (onMessage st sidePanelLoadedMessage now roll1 roll2 storageOk).1.storage
        = st.storage ∧
      (onMessage st sidePanelLoadedMessage now roll1 roll2 storageOk).2.2.length
        = st.recentCaptures.length ∧
      (∀ (j : Nat) (m : ExtMessage), st.recentCaptures.get? j = some m →
        (onMessage st sidePanelLoadedMessage now roll1 roll2 storageOk).2.2.get? j
          = some (BgEffect.sentToPanel m (j * 100)))) ∧
    (∀ (m : ExtMessage) (mem : List ExtMessage),
      mem.length < MAX_RECENT_CAPTURES →
      memoryStoreCapture m mem = m :: mem) := by
  constructor
  · intro st now roll1 roll2 storageOk hlk
    have heff : (onMessage st sidePanelLoadedMessage now roll1 roll2
        storageOk).2.2 = scheduleSends 0 st.recentCaptures := by
      rw [onMessage, isMessageProcessed]
      rw [hlk]
      simp [sidePanelLoadedMessage, sendAllCapturesToSidePanel]
    refine ⟨?_, ?_, ?_, ?_⟩
    · rw [onMessage, isMessageProcessed]
      rw [hlk]
      simp [sidePanelLoadedMessage]
    · rw [onMessage, isMessageProcessed]
      rw [hlk]
      simp [sidePanelLoadedMessage]
    · rw [heff]
      exact scheduleSends_length st.recentCaptures 0
    · intro j m hm
      rw [heff, scheduleSends_lookup, hm]
      simp
  · intro m mem hlen
    have hcap : ¬ (m :: mem).length > MAX_RECENT_CAPTURES := by
      simp only [List.length_cons]
      omega
    simp only [memoryStoreCapture]
    rw [if_neg hcap]

/-- Witness for `panel_attach_replay_amended`: a panel attach with two
in-memory captures sends the second one 100 ms after the first; a
fallback store prepends. -/
theorem panel_attach_replay_amended_witness :
    (onMessage ⟨[], [], none, [c2Message, sidePanelLoadedMessage], false⟩
      sidePanelLoadedMessage 0 false false true).2.2.get? 1
      = some (BgEffect.sentToPanel sidePanelLoadedMessage 100) ∧
    memoryStoreCapture c2Message [] = [c2Message] := by
  constructor
  · have h := (panel_attach_replay_amended.1
      ⟨[], [], none, [c2Message, sidePanelLoadedMessage], false⟩
      0 false false true (by decide)).2.2.2 1 sidePanelLoadedMessage (by decide)
    simpa using h
  · exact panel_attach_replay_amended.2 c2Message [] (by decide)

/-! ### Screenshot single-flight / cooldown / timeout
(content-script `handleScreenshotCapture`)

The handler's module state (`activeScreenshotCapture`,
`lastScreenshotTime`, the pending 15 s timeout) is a state machine driven
by request, completion and timeout-fire events.  The guard order matters:
the cooldown check runs BEFORE the in-progress check. -/

/-- content script `SCREENSHOT_COOLDOWN` (1 second). -/
def SCREENSHOT_COOLDOWN : Nat := 1000

/-- The handler's 15-second abandon timeout. -/
def SCREENSHOT_TIMEOUT : Nat := 15000

/-- The screenshot handler's module state. -/
structure ScreenshotState where
  activeScreenshotCapture : Bool
  lastScreenshotTime : Nat
  pendingDeadline : Option Nat
deriving DecidableEq, Repr

/-- The state at content-script load. -/
def initialScreenshotState : ScreenshotState := ⟨false, 0, none⟩

/-- An event hitting the screenshot handler: a capture request at a given
time, the in-flight capture resolving, or the 15 s timeout firing. -/
inductive ScreenshotEvent where
  | request (now : Nat)
  | complete (now : Nat)
  | timeoutFire (now : Nat)
deriving DecidableEq, Repr

/-- How the handler disposed of an event. -/
inductive ScreenshotOutcome where
  | started
  | rejectedCooldown
  | rejectedInProgress
  | completed
  | timedOutFailed
  | ignored
deriving DecidableEq, Repr

/-- One step of `handleScreenshotCapture` and its timeout/completion
paths: a request inside the cooldown is ignored (console log only); past
the cooldown, a request while a capture is active is rejected with the
"already in progress" error toast; otherwise the capture starts, stamping
the time and arming the 15 s timeout.  Completion clears the flag and the
timeout; an armed timeout firing reports failure and clears the flag. -/
def screenshotStep (st : ScreenshotState) (e : ScreenshotEvent) :
    ScreenshotState × ScreenshotOutcome :=
  match e with
  | .request now =>
    if now - st.lastScreenshotTime < SCREENSHOT_COOLDOWN then
      (st, .rejectedCooldown)
    else if st.activeScreenshotCapture then
      (st, .rejectedInProgress)
    else
      (⟨true, now, some (now + SCREENSHOT_TIMEOUT)⟩, .started)
  | .complete _ =>
    (⟨false, st.lastScreenshotTime, none⟩, .completed)
  | .timeoutFire _ =>
    match st.pendingDeadline with
    | some _ => (⟨false, st.lastScreenshotTime, none⟩, .timedOutFailed)
    | none => (st, .ignored)

/-- The outcome trace of a list of events. -/
def screenshotRun (st : ScreenshotState) :
    List ScreenshotEvent → List ScreenshotOutcome
  | [] => []
  | e :: rest =>
    (screenshotStep st e).2 :: screenshotRun (screenshotStep st e).1 rest

/-- Is an event a finish (completion or timeout fire)? -/
def isFinishEvent : ScreenshotEvent → Bool
  | .complete _ => true
  | .timeoutFire _ => true
  | .request _ => false

/-- Count of `started` outcomes in a trace. -/
def countStarted (outs : List ScreenshotOutcome) : Nat :=
  (outs.filter (fun o => o == ScreenshotOutcome.started)).length

/-- C6 (counterexample): the claim says a second request while one is in
flight — e.g. two requests within 500 ms — is rejected with the "capture
already in progress" condition; in fact the cooldown check runs first, so
the second of two requests 500 ms apart is silently ignored by the
cooldown and the in-progress rejection is never reached. -/
theorem screenshot_500ms_cooldown_counterexample :
    (screenshotStep initialScreenshotState
      (ScreenshotEvent.request 10000)).2 = ScreenshotOutcome.started ∧
    (screenshotStep (screenshotStep initialScreenshotState
        (ScreenshotEvent.request 10000)).1
      (ScreenshotEvent.request 10500)).2 = ScreenshotOutcome.rejectedCooldown ∧
    ScreenshotOutcome.rejectedCooldown ≠ ScreenshotOutcome.rejectedInProgress := by
  refine ⟨?_, ?_, ?_⟩ <;> decide

theorem countStarted_cons (o : ScreenshotOutcome)
    (outs : List ScreenshotOutcome) :
    countStarted (o :: outs) =
      (if o = ScreenshotOutcome.started then 1 else 0) + countStarted outs := by
  by_cases h : o = ScreenshotOutcome.started <;>
    simp [countStarted, List.filter_cons, h, Nat.add_comm]

theorem screenshot_no_start_while_active (st : ScreenshotState)
    (evs : List ScreenshotEvent)
    (hnf : ∀ e ∈ evs, isFinishEvent e = false)
    (hact : st.activeScreenshotCapture = true) :
    countStarted (screenshotRun st evs) = 0 := by
  induction evs generalizing st with
  | nil => rfl
  | cons e rest ih =>
    have hnfe := hnf e (List.mem_cons_self e rest)
    have hnfr : ∀ x ∈ rest, isFinishEvent x = false :=
      fun x hx => hnf x (List.mem_cons_of_mem e hx)
    cases e with
    | complete now => simp [isFinishEvent] at hnfe
    | timeoutFire now => simp [isFinishEvent] at hnfe
    | request now =>
      by_cases hcd : now - st.lastScreenshotTime < SCREENSHOT_COOLDOWN
      · rw [screenshotRun]
        simp only [screenshotStep, if_pos hcd, countStarted_cons]
        rw [ih st hnfr hact]
        rfl
      · rw [screenshotRun]
        simp only [screenshotStep, if_neg hcd, hact, if_true, countStarted_cons]
        rw [ih st hnfr hact]
        rfl

theorem screenshot_single_flight_aux (st : ScreenshotState)
    (evs : List ScreenshotEvent)
    (hnf : ∀ e ∈ evs, isFinishEvent e = false) :
    countStarted (screenshotRun st evs) ≤ 1 := by
  induction evs generalizing st with
  | nil => simp [screenshotRun, countStarted]
  | cons e rest ih =>
    have hnfe := hnf e (List.mem_cons_self e rest)
    have hnfr : ∀ x ∈ rest, isFinishEvent x = false :=
      fun x hx => hnf x (List.mem_cons_of_mem e hx)
    cases e with
    | complete now => simp [isFinishEvent] at hnfe
    | timeoutFire now => simp [isFinishEvent] at hnfe
    | request now =>
      by_cases hcd : now - st.lastScreenshotTime < SCREENSHOT_COOLDOWN
      · rw [screenshotRun]
        simp only [screenshotStep, if_pos hcd, countStarted_cons]
        rw [if_neg (by decide :
          ¬ ScreenshotOutcome.rejectedCooldown = ScreenshotOutcome.started)]
        have := ih st hnfr
        omega
      · by_cases hact : st.activeScreenshotCapture
        · rw [screenshotRun]
          simp only [screenshotStep, if_neg hcd, hact, if_true,
            countStarted_cons]
          rw [if_neg (by decide :
            ¬ ScreenshotOutcome.rejectedInProgress = ScreenshotOutcome.started)]
          have := ih st hnfr
          omega
        · rw [screenshotRun]
          have hact' : st.activeScreenshotCapture = false := by
            simpa using hact
          simp only [screenshotStep, if_neg hcd, hact', Bool.false_eq_true,
            if_false, countStarted_cons]
          have hzero := screenshot_no_start_while_active
            ⟨true, now, some (now + SCREENSHOT_TIMEOUT)⟩ rest hnfr rfl
          rw [hzero]
          simp

/-- C6 (amended): the screenshot pipeline never has two capture attempts
in flight — over any run of request events with no intervening completion
or timeout, at most one request starts a capture, the others being
rejected rather than queued.  A request within ~1 s of the previous
started attempt is rejected by the cooldown — in particular the second of
two requests 500 ms apart is rejected by the cooldown, not with the
"capture already in progress" condition; a request past the cooldown while
a capture is in flight is rejected with "capture already in progress"; a
start arms a 15 s deadline, and an armed timeout firing abandons the
attempt and reports failure even though the platform call never
resolved. -/
theorem handleScreenshotCapture_amended :
    (∀ (st : ScreenshotState) (now : Nat),
      now - st.lastScreenshotTime < SCREENSHOT_COOLDOWN →
      screenshotStep st (ScreenshotEvent.request now)
        = (st, ScreenshotOutcome.rejectedCooldown)) ∧
    (∀ (st : ScreenshotState) (now : Nat),
      ¬ now - st.lastScreenshotTime < SCREENSHOT_COOLDOWN →
      st.activeScreenshotCapture = true →
      screenshotStep st (ScreenshotEvent.request now)
        = (st, ScreenshotOutcome.rejectedInProgress)) ∧
    (∀ (st : ScreenshotState) (now : Nat),
      ¬ now - st.lastScreenshotTime < SCREENSHOT_COOLDOWN →
      st.activeScreenshotCapture = false →
      screenshotStep st (ScreenshotEvent.request now)
        = (⟨true, now, some (now + SCREENSHOT_TIMEOUT)⟩,
           ScreenshotOutcome.started)) ∧
    (∀ (st : ScreenshotState) (now d : Nat), st.pendingDeadline = some d →
      screenshotStep st (ScreenshotEvent.timeoutFire now)
        = (⟨false, st.lastScreenshotTime, none⟩,
           ScreenshotOutcome.timedOutFailed)) ∧
    (∀ (st : ScreenshotState) (evs : List ScreenshotEvent),
      (∀ e ∈ evs, isFinishEvent e = false) →
      countStarted (screenshotRun st evs) ≤ 1) := by
  refine ⟨?_, ?_, ?_, ?_, screenshot_single_flight_aux⟩
  · intro st now h
    simp [screenshotStep, h]
  · intro st now h hact
    simp [screenshotStep, h, hact]
  · intro st now h hact
    simp [screenshotStep, h, hact]
  · intro st now d hd
    simp [screenshotStep, hd]

/-- Witness for `handleScreenshotCapture_amended`: a request 500 ms after
a start is cooldown-rejected; a request 2 s after a start still in flight
is rejected as in progress; an armed timeout abandons the attempt; a
three-request finish-free burst starts at most one capture. -/
theorem handleScreenshotCapture_amended_witness :
    screenshotStep ⟨true, 10000, some 25000⟩ (ScreenshotEvent.request 10500)
      = (⟨true, 10000, some 25000⟩, ScreenshotOutcome.rejectedCooldown) ∧
    screenshotStep ⟨true, 10000, some 25000⟩ (ScreenshotEvent.request 12000)
      = (⟨true, 10000, some 25000⟩, ScreenshotOutcome.rejectedInProgress) ∧
    screenshotStep ⟨true, 10000, some 25000⟩ (ScreenshotEvent.timeoutFire 25000)
      = (⟨false, 10000, none⟩, ScreenshotOutcome.timedOutFailed) ∧
    countStarted (screenshotRun initialScreenshotState
      [ScreenshotEvent.request 10000, ScreenshotEvent.request 10500,
       ScreenshotEvent.request 12000]) ≤ 1 := by
  refine ⟨?_, ?_, ?_, ?_⟩
  · exact handleScreenshotCapture_amended.1 ⟨true, 10000, some 25000⟩ 10500
      (by decide)
  · exact handleScreenshotCapture_amended.2.1 ⟨true, 10000, some 25000⟩ 12000
      (by decide) rfl
  · exact handleScreenshotCapture_amended.2.2.2.1 ⟨true, 10000, some 25000⟩
      25000 25000 rfl
  · exact handleScreenshotCapture_amended.2.2.2.2 initialScreenshotState
      [ScreenshotEvent.request 10000, ScreenshotEvent.request 10500,
       ScreenshotEvent.request 12000] (by decide)
